import Mathlib

/-!
Shallow embedding of the Hyper-V virtual storage device subsystem of
bdf_windows_exporter: instance-name decoding, path resolution, disk size
probing and metric emission.

Go strings are embedded as lists of characters (`GoStr`); the filesystem
(os.Stat / filepath.Glob) and the native virtdisk layer (OpenVirtualDisk /
GetVirtualDiskInformation) are embedded as explicit deterministic oracles.
float64 counter payloads are carried as exact integers, since the code only
passes them through without arithmetic.
-/

namespace WinExporter

/-- Go strings, embedded as lists of characters. -/
abbrev GoStr := List Char

/-- Embeds strings.Contains: substring occurrence. -/
def containsSeq : GoStr → GoStr → Bool
  | [], pat => pat.isPrefixOf []
  | s@(_ :: t), pat => pat.isPrefixOf s || containsSeq t pat

/-- Embeds strings.HasPrefix. -/
def hasPrefixSeq (s pat : GoStr) : Bool := pat.isPrefixOf s

/-- Embeds strings.TrimPrefix: drops pat when it is a prefix of s. -/
def trimPrefixSeq (s pat : GoStr) : GoStr :=
  if pat.isPrefixOf s then s.drop pat.length else s

/-- Embeds strings.ReplaceAll for a one-character pattern. -/
def replaceAllChar (s : GoStr) (a b : Char) : GoStr :=
  s.map fun c => if c = a then b else c

/-- Embeds strings.Split with a one-character separator. -/
def splitChar : GoStr → Char → List GoStr
  | [], _ => [[]]
  | c :: t, d =>
    if c = d then [] :: splitChar t d
    else
      match splitChar t d with
      | [] => [[c]]
      | h :: r => (c :: h) :: r

/-- Embeds filepath.Join for the two-argument calls in this file, whose
components are separator-free and contain no dot elements, so Clean is the
identity on the concatenation. -/
def joinPath (b p : GoStr) : GoStr :=
  if b = [] then p
  else if b.getLast? = some '\\' then b ++ p
  else b ++ '\\' :: p

/-- Result of a successful os.Stat call: whether the entry is a directory. -/
inductive StatInfo where
  | dir
  | file
deriving DecidableEq

/-- The filesystem as observed through os.Stat and filepath.Glob.  stat
returns none when os.Stat errors; glob returns none when filepath.Glob
errors, otherwise the list of matches. -/
structure FS where
  stat : GoStr → Option StatInfo
  glob : GoStr → Option (List GoStr)

/-- Embeds fileExists from hyperv_virtual_storage_device.go. -/
def fileExists (fs : FS) (path : GoStr) : Bool := (fs.stat path).isSome

/-- Embeds the os.Stat + fileInfo.IsDir() pattern. -/
def isDirAt (fs : FS) (path : GoStr) : Bool := fs.stat path = some StatInfo.dir

/-- The drive-letter marker substring checked by decodeVirtualDiskPath. -/
def driveMarker : GoStr := (":-").toList

/-- The encoded UNC marker checked and trimmed by decodeVirtualDiskPath. -/
def uncMarker : GoStr := ("--?-").toList

/-- Extension marker for VHD-family names, matched as a substring. -/
def vhdMarker : GoStr := (".vhd").toList

/-- Extension marker for guest-state files, matched as a substring. -/
def vmgsMarker : GoStr := (".vmgs").toList

/-- The loop of tryPathCombinations, carrying the Go loop's mutable basePath
and currentPath variables; index arithmetic becomes pattern matching, and
the i++ of a successful two-segment merge becomes recursion on the tail. -/
def tryPathLoop (fs : FS) : GoStr → GoStr → List GoStr → GoStr
  | _, _, [] => []
  | basePath, currentPath, [p] =>
    if p = [] then []
    else
      let testPath := joinPath basePath p
      if containsSeq p vhdMarker || containsSeq p vmgsMarker then
        if currentPath ≠ [] && fileExists fs (joinPath currentPath p) then
          joinPath currentPath p
        else if fileExists fs testPath then testPath
        else []
      else []
  | basePath, currentPath, p :: q :: qs =>
    if p = [] then tryPathLoop fs basePath currentPath (q :: qs)
    else
      let testPath := joinPath basePath p
      if isDirAt fs testPath then tryPathLoop fs testPath testPath (q :: qs)
      else
        let testPath2 := joinPath basePath (p ++ '-' :: q)
        if isDirAt fs testPath2 then tryPathLoop fs testPath2 testPath2 qs
        else tryPathLoop fs basePath currentPath (q :: qs)

/-- Embeds tryPathCombinations: empty part lists yield the empty string,
otherwise the loop runs with currentPath initialised empty. -/
def tryPathCombinations (fs : FS) (basePath : GoStr) (parts : List GoStr) : GoStr :=
  if parts = [] then [] else tryPathLoop fs basePath [] parts

/-- Embeds decodeVirtualDiskPath from hyperv_virtual_storage_device.go. -/
def decodeVirtualDiskPath (fs : FS) (instanceName : GoStr) : GoStr :=
  if instanceName = [] then []
  else if !containsSeq instanceName driveMarker && !hasPrefixSeq instanceName uncMarker then []
  else
    let path := trimPrefixSeq instanceName uncMarker
    if path.length < 3 ∨ path.getD 1 ' ' ≠ ':' ∨ path.getD 2 ' ' ≠ '-' then []
    else
      let driveLetter := path.getD 0 ' '
      let remainingPath := path.drop 3
      let simplePath := driveLetter :: ':' :: '\\' :: replaceAllChar remainingPath '-' '\\'
      if fileExists fs simplePath then simplePath
      else
        tryPathCombinations fs (driveLetter :: ':' :: '\\' :: [])
          (splitChar remainingPath '-')

/-- The glob wildcard component. -/
def star : GoStr := ("*").toList

/-- The fixed built-in list of conventional Hyper-V storage locations. -/
def commonPathsBuiltin : List GoStr :=
  [("C:\\ClusterStorage").toList,
   ("C:\\ProgramData\\Microsoft\\Windows\\Hyper-V").toList,
   ("C:\\ProgramData\\Microsoft\\Windows\\Hyper-V\\Virtual Hard Disks").toList,
   ("C:\\Users\\Public\\Documents\\Hyper-V\\Virtual Hard Disks").toList,
   ("D:\\Hyper-V").toList,
   ("D:\\Hyper-V\\Virtual Hard Disks").toList,
   ("E:\\Hyper-V").toList,
   ("E:\\Hyper-V\\Virtual Hard Disks").toList]

/-- The search list after applying the HYPERV_VHD_PATHS override (env is the
result of os.Getenv): a non-empty value is split on semicolons and prepended
to the built-in list. -/
def commonPathsFor (env : GoStr) : List GoStr :=
  if env ≠ [] then splitChar env ';' ++ commonPathsBuiltin else commonPathsBuiltin

/-- Candidate file names derived from the instance name, in the order the
resolver builds them. -/
def possibleNamesFor (instanceName : GoStr) : List GoStr :=
  let possibleNames := [instanceName ++ (".vhdx").toList,
                        instanceName ++ (".vhd").toList,
                        instanceName ++ (".vhdset").toList]
  let parts := splitChar instanceName '_'
  let possibleNames :=
    if parts.length > 1 then
      let lastPart := parts.getLast?.getD []
      possibleNames ++ [lastPart ++ (".vhdx").toList,
                        lastPart ++ (".vhd").toList,
                        lastPart ++ (".vhdset").toList]
    else possibleNames
  if containsSeq instanceName vhdMarker then instanceName :: possibleNames
  else possibleNames

/-- Inner loop of the fallback search: for one base path, try each candidate
name by direct join, then a one-level and a two-level glob pattern.  some r
models the Go early return; none means the loop ran out of names. -/
def searchNamesIn (fs : FS) (basePath : GoStr) : List GoStr → Option GoStr
  | [] => none
  | name :: rest =>
    if fileExists fs (joinPath basePath name) then some (joinPath basePath name)
    else
      match fs.glob (joinPath (joinPath basePath star) name) with
      | some (m :: _) => some m
      | _ =>
        match fs.glob (joinPath (joinPath (joinPath basePath star) star) name) with
        | some (m :: _) => some m
        | _ => searchNamesIn fs basePath rest

/-- Outer loop of the fallback search over the base directories. -/
def searchVhdPaths (fs : FS) (names : List GoStr) : List GoStr → Option GoStr
  | [] => none
  | basePath :: rest =>
    match searchNamesIn fs basePath names with
    | some r => some r
    | none => searchVhdPaths fs names rest

/-- Embeds resolveVirtualDiskPath: decode and verify, then fall back to the
heuristic search over the configured base directories. -/
def resolveVirtualDiskPath (fs : FS) (env : GoStr) (instanceName : GoStr) : GoStr :=
  let decodedPath := decodeVirtualDiskPath fs instanceName
  if decodedPath ≠ [] ∧ fileExists fs decodedPath then decodedPath
  else
    match searchVhdPaths fs (possibleNamesFor instanceName) (commonPathsFor env) with
    | some r => r
    | none => []

/-- Virtual storage device types, from the VIRTUAL_STORAGE_TYPE_DEVICE
constants. -/
inductive StorageDeviceType where
  | unknown
  | vhd
  | vhdx
  | vhdset
  | iso
deriving DecidableEq

/-- Embeds the scan of filepath.Ext: walks the path from its end; a path
separator before any dot means no extension, otherwise the suffix from the
last dot.  acc accumulates the already-scanned suffix in forward order. -/
def extScan : GoStr → GoStr → GoStr
  | _, [] => []
  | acc, c :: t =>
    if c = '\\' ∨ c = '/' then []
    else if c = '.' then c :: acc
    else extScan (c :: acc) t

/-- Embeds filepath.Ext. -/
def extOf (path : GoStr) : GoStr := extScan [] path.reverse

/-- Storage type classification from the file extension, as performed at the
top of GetVirtualDiskSize. -/
def storageTypeOf (path : GoStr) : StorageDeviceType :=
  if extOf path = (".vhd").toList then StorageDeviceType.vhd
  else if extOf path = (".vhdx").toList then StorageDeviceType.vhdx
  else if extOf path = (".vhdset").toList then StorageDeviceType.vhdset
  else if extOf path = (".iso").toList then StorageDeviceType.iso
  else StorageDeviceType.unknown

/-- The three distinct error classes GetVirtualDiskSize can wrap and
return, corresponding to its three fmt.Errorf sites. -/
inductive VirtDiskError where
  | utf16Failed
  | openFailed
  | queryFailed
deriving DecidableEq

/-- The native virtdisk layer, as a deterministic oracle: OpenVirtualDisk
(given the classified storage type and path) and GetVirtualDiskInformation;
handles are opaque naturals; none models a failing call. -/
structure VirtDiskWorld where
  openDisk : StorageDeviceType → GoStr → Option Nat
  queryInfo : Nat → Option (Nat × Nat)

/-- Handle lifecycle events, used to audit the open/close discipline. -/
inductive HandleEvent where
  | opened (h : Nat)
  | closed (h : Nat)
deriving DecidableEq

/-- Embeds GetVirtualDiskSize together with the handle events it performs.
UTF16 conversion fails exactly on interior NUL characters; a successful open
is paired with the deferred CloseHandle on every return path. -/
def GetVirtualDiskSize (w : VirtDiskWorld) (path : GoStr) :
    Except VirtDiskError (Nat × Nat) × List HandleEvent :=
  if path.contains (Char.ofNat 0) then (Except.error VirtDiskError.utf16Failed, [])
  else
    match w.openDisk (storageTypeOf path) path with
    | none => (Except.error VirtDiskError.openFailed, [])
    | some handle =>
      match w.queryInfo handle with
      | none => (Except.error VirtDiskError.queryFailed,
                 [HandleEvent.opened handle, HandleEvent.closed handle])
      | some sizes => (Except.ok sizes,
                 [HandleEvent.opened handle, HandleEvent.closed handle])

/-- One row of Hyper-V Virtual Storage Device performance data.  float64
counter values are carried as exact integers: the collector only passes them
through. -/
structure PerfDataVSD where
  name : GoStr
  errorCount : Int
  queueLength : Int
  readBytes : Int
  readOperations : Int
  writeBytes : Int
  writeOperations : Int
  latency : Int
  throughput : Int
  normalizedThroughput : Int
  lowerQueueLength : Int
  lowerLatency : Int
  ioQuotaReplenishmentRate : Int
deriving DecidableEq

/-- The twelve plain per-device counters emitted before the size metrics. -/
inductive CounterKind where
  | errorCount
  | queueLength
  | readBytes
  | readOperations
  | writeBytes
  | writeOperations
  | latency
  | throughput
  | normalizedThroughput
  | lowerQueueLength
  | lowerLatency
  | ioQuotaReplenishmentRate
deriving DecidableEq

/-- Metrics sent to the channel: twelve counters per device, then the
virtual and physical size gauges carrying a resolved-path label. -/
inductive Metric where
  | counter (kind : CounterKind) (value : Int) (device : GoStr)
  | vsize (value : Int) (device : GoStr) (path : GoStr)
  | psize (value : Int) (device : GoStr) (path : GoStr)
deriving DecidableEq

/-- The literal label emitted when the path cannot be resolved. -/
def unknownLabel : GoStr := ("unknown").toList

/-- The virtualSize, physicalSize and resolvedPath locals of the collection
loop: initialised to the sentinels, overwritten with the resolved path and,
when the probe succeeds, the true sizes. -/
def sizeOutcome (fs : FS) (w : VirtDiskWorld) (env : GoStr)
    (name : GoStr) : Int × Int × GoStr :=
  let diskPath := resolveVirtualDiskPath fs env name
  if diskPath ≠ [] then
    match (GetVirtualDiskSize w diskPath).1 with
    | Except.ok (v, p) => ((v : Int), (p : Int), diskPath)
    | Except.error _ => (-1, -1, diskPath)
  else (-1, -1, unknownLabel)

/-- The per-device body of the collection loop in
collectVirtualStorageDevice: the twelve counters, then resolution, the size
probe, and the two always-emitted size gauges. -/
def collectOneVSD (fs : FS) (w : VirtDiskWorld) (env : GoStr)
    (data : PerfDataVSD) : List Metric :=
  let counters : List Metric :=
    [Metric.counter CounterKind.errorCount data.errorCount data.name,
     Metric.counter CounterKind.queueLength data.queueLength data.name,
     Metric.counter CounterKind.readBytes data.readBytes data.name,
     Metric.counter CounterKind.readOperations data.readOperations data.name,
     Metric.counter CounterKind.writeBytes data.writeBytes data.name,
     Metric.counter CounterKind.writeOperations data.writeOperations data.name,
     Metric.counter CounterKind.latency data.latency data.name,
     Metric.counter CounterKind.throughput data.throughput data.name,
     Metric.counter CounterKind.normalizedThroughput data.normalizedThroughput data.name,
     Metric.counter CounterKind.lowerQueueLength data.lowerQueueLength data.name,
     Metric.counter CounterKind.lowerLatency data.lowerLatency data.name,
     Metric.counter CounterKind.ioQuotaReplenishmentRate data.ioQuotaReplenishmentRate data.name]
  let outcome := sizeOutcome fs w env data.name
  counters ++
    [Metric.vsize outcome.1 data.name outcome.2.2,
     Metric.psize outcome.2.1 data.name outcome.2.2]

/-- The one error class that aborts a collection cycle: the performance
counter collection itself failed. -/
inductive CollectError where
  | perfFail
deriving DecidableEq

/-- Embeds collectVirtualStorageDevice: a failed perf collection aborts the
whole cycle; otherwise every device row is processed in order and the cycle
always succeeds. -/
def collectVirtualStorageDevice (fs : FS) (w : VirtDiskWorld) (env : GoStr)
    (perf : Except Unit (List PerfDataVSD)) : Except CollectError (List Metric) :=
  match perf with
  | Except.error _ => Except.error CollectError.perfFail
  | Except.ok rows => Except.ok (rows.flatMap (collectOneVSD fs w env))

/-- Selector for the two size gauges among a device's emitted metrics. -/
def isSizeMetric : Metric → Bool
  | Metric.vsize _ _ _ => true
  | Metric.psize _ _ _ => true
  | Metric.counter _ _ _ => false

/-- The size observations contained in an emission list. -/
def sizeObservations (ms : List Metric) : List Metric := ms.filter isSizeMetric

/-- Number of OpenVirtualDisk successes recorded in a handle event trace. -/
def countOpens (t : List HandleEvent) : Nat :=
  t.countP fun e => match e with | HandleEvent.opened _ => true | _ => false

/-- Number of CloseHandle calls recorded in a handle event trace. -/
def countCloses (t : List HandleEvent) : Nat :=
  t.countP fun e => match e with | HandleEvent.closed _ => true | _ => false

/-- Whether a size query outcome is a failure, the only distinction the
collector makes. -/
def probeFailed : Except VirtDiskError (Nat × Nat) → Bool
  | Except.error _ => true
  | Except.ok _ => false

/-- Modelled from the spec: the drive-letter-separator pattern as the spec
words it, a letter, then a colon, then the path-delimiter substitute. -/
def specHasDriveLetterPattern : GoStr → Bool
  | a :: b :: c :: t =>
    (a.isAlpha && (b == ':') && (c == '-')) || specHasDriveLetterPattern (b :: c :: t)
  | _ => false

/-- Modelled from the spec: the documented encoding transform, replacing
each backslash with the delimiter (the drive colon-backslash case is
subsumed by the general replacement). -/
def encodePath (p : GoStr) : GoStr := replaceAllChar p '\\' '-'

/-- Backslash-joined path segments, used to state the round-trip property. -/
def joinSegs : List GoStr → GoStr
  | [] => []
  | [s] => s
  | s :: rest => s ++ '\\' :: joinSegs rest

/-- A concrete filesystem from a list of directories and a list of files;
glob always errors (it is not needed by the concrete scenarios). -/
def mkFS (dirs files : List GoStr) : FS :=
  { stat := fun p =>
      if dirs.contains p then some StatInfo.dir
      else if files.contains p then some StatInfo.file
      else none,
    glob := fun _ => none }

/-- Concrete filesystem: a directory name containing the delimiter, holding
a guest-state file. -/
def fsA : FS := mkFS
  [("C:\\Data").toList, ("C:\\Data\\VM-A").toList]
  [("C:\\Data\\VM-A\\state.vmgs").toList]

/-- Concrete filesystem: a directory name containing the delimiter, holding
an ISO image. -/
def fsIso : FS := mkFS
  [("C:\\Data").toList, ("C:\\Data\\VM-A").toList]
  [("C:\\Data\\VM-A\\boot.iso").toList]

/-- Concrete filesystem: a directory name containing the delimiter, holding
a file whose extension is .bak but whose name contains ".vhd". -/
def fsBak : FS := mkFS
  [("C:\\Data").toList, ("C:\\Data\\VM-A").toList]
  [("C:\\Data\\VM-A\\x.vhd.bak").toList]

/-- Concrete filesystem holding one disk image under drive V. -/
def fsD : FS := mkFS [] [("V:\\d.vhdx").toList]

/-- Concrete filesystem holding a file under the non-letter drive name 1. -/
def fsOne : FS := mkFS [] [("1:\\a").toList]

/-- Concrete filesystem with a same-named candidate both in an operator
override directory and in a built-in base directory. -/
def fsOv : FS := mkFS []
  [("X:\\VHDs\\vm1.vhdx").toList, ("C:\\ClusterStorage\\vm1.vhdx").toList]

/-- Concrete filesystem for the round-trip witness. -/
def fsRT : FS := mkFS [] [("C:\\Data\\disk.vhdx").toList]

/-- Native layer whose OpenVirtualDisk always fails. -/
def wOpenFail : VirtDiskWorld :=
  { openDisk := fun _ _ => none, queryInfo := fun _ => none }

/-- Native layer whose OpenVirtualDisk succeeds with handle 7 and whose
GetVirtualDiskInformation always fails. -/
def wQueryFail : VirtDiskWorld :=
  { openDisk := fun _ _ => some 7, queryInfo := fun _ => none }

/-- Native layer where opening yields handle 7 and the size query reports a
virtual size of 100 and a physical size of 50. -/
def wOk : VirtDiskWorld :=
  { openDisk := fun _ _ => some 7, queryInfo := fun _ => some (100, 50) }

/-- A device row whose instance name decodes to the disk of fsD. -/
def dataD : PerfDataVSD := ⟨("V:-d.vhdx").toList, 0, 0, 0, 0, 0, 0, 0, 0, 0, 0, 0, 0⟩

/-- A device row whose instance name resolves nowhere. -/
def dataNoRes : PerfDataVSD := ⟨("nores").toList, 0, 0, 0, 0, 0, 0, 0, 0, 0, 0, 0, 0⟩

end WinExporter

namespace WinExporter

/-! Helper lemmas shared by the claim theorems. -/

/-- Soundness invariant of the tryPathCombinations loop: a non-empty result
is an existence-checked file join of the last segment onto a prefix that is
either the untouched base path or a directory verified on disk, and the
last segment carries a recognised extension marker. -/
theorem tryPathLoop_sound (fs : FS) (base : GoStr) :
    ∀ (basePath currentPath : GoStr) (parts : List GoStr),
      (basePath = base ∨ isDirAt fs basePath = true) →
      (currentPath = [] ∨ isDirAt fs currentPath = true) →
      tryPathLoop fs basePath currentPath parts ≠ [] →
      fileExists fs (tryPathLoop fs basePath currentPath parts) = true ∧
      ∃ b l, parts.getLast? = some l ∧ l ≠ [] ∧
        (containsSeq l vhdMarker || containsSeq l vmgsMarker) = true ∧
        tryPathLoop fs basePath currentPath parts = joinPath b l ∧
        (b = base ∨ isDirAt fs b = true) := by
  intro basePath currentPath parts
  induction basePath, currentPath, parts using tryPathLoop.induct fs with
  | case1 bp cp =>
    intro _ _ hne
    exact absurd rfl hne
  | case2 bp cp =>
    intro _ _ hne
    simp [tryPathLoop] at hne
  | case3 bp cp p hp hmark hcur =>
    intro hb hc _
    have hval : tryPathLoop fs bp cp [p] = joinPath cp p := by
      simp only [tryPathLoop, if_neg hp]
      rw [if_pos hmark, if_pos hcur]
    obtain ⟨hc1, hex⟩ := Bool.and_eq_true_iff.mp hcur
    have hcne : cp ≠ [] := of_decide_eq_true hc1
    refine ⟨by rw [hval]; exact hex, cp, p, rfl, hp, hmark, hval, ?_⟩
    rcases hc with h | h
    · exact absurd h hcne
    · exact Or.inr h
  | case4 bp cp p hp tp hmark hn hex =>
    intro hb hc _
    have hval : tryPathLoop fs bp cp [p] = joinPath bp p := by
      simp only [tryPathLoop, if_neg hp]
      rw [if_pos hmark, if_neg hn, if_pos hex]
    exact ⟨by rw [hval]; exact hex, bp, p, rfl, hp, hmark, hval, hb⟩
  | case5 bp cp p hp tp hmark hn hnex =>
    intro _ _ hne
    have hval : tryPathLoop fs bp cp [p] = [] := by
      simp only [tryPathLoop, if_neg hp]
      rw [if_pos hmark, if_neg hn, if_neg hnex]
    exact absurd hval hne
  | case6 bp cp p hp hnmark =>
    intro _ _ hne
    have hval : tryPathLoop fs bp cp [p] = [] := by
      simp only [tryPathLoop, if_neg hp]
      rw [if_neg hnmark]
    exact absurd hval hne
  | case7 bp cp q qs ih =>
    intro hb hc hne
    have hval : tryPathLoop fs bp cp ([] :: q :: qs) = tryPathLoop fs bp cp (q :: qs) := by
      simp [tryPathLoop]
    rw [hval] at hne ⊢
    obtain ⟨h1, b, l, hl, h2⟩ := ih hb hc hne
    exact ⟨h1, b, l, by rw [List.getLast?_cons_cons]; exact hl, h2⟩
  | case8 bp cp p q qs hp tp hdir ih =>
    intro hb hc hne
    have hval : tryPathLoop fs bp cp (p :: q :: qs) =
        tryPathLoop fs (joinPath bp p) (joinPath bp p) (q :: qs) := by
      simp only [tryPathLoop, if_neg hp]
      rw [if_pos hdir]
    rw [hval] at hne ⊢
    obtain ⟨h1, b, l, hl, h2⟩ := ih (Or.inr hdir) (Or.inr hdir) hne
    exact ⟨h1, b, l, by rw [List.getLast?_cons_cons]; exact hl, h2⟩
  | case9 bp cp p q qs hp tp hndir tp2 hdir2 ih =>
    intro hb hc hne
    have hval : tryPathLoop fs bp cp (p :: q :: qs) =
        tryPathLoop fs (joinPath bp (p ++ '-' :: q)) (joinPath bp (p ++ '-' :: q)) qs := by
      simp only [tryPathLoop, if_neg hp]
      rw [if_neg hndir, if_pos hdir2]
    rw [hval] at hne ⊢
    obtain ⟨h1, b, l, hl, h2⟩ := ih (Or.inr hdir2) (Or.inr hdir2) hne
    match qs, hl with
    | x :: xs, hl =>
      exact ⟨h1, b, l, by rw [List.getLast?_cons_cons, List.getLast?_cons_cons]; exact hl, h2⟩
  | case10 bp cp p q qs hp tp hndir tp2 hndir2 ih =>
    intro hb hc hne
    have hval : tryPathLoop fs bp cp (p :: q :: qs) = tryPathLoop fs bp cp (q :: qs) := by
      simp only [tryPathLoop, if_neg hp]
      rw [if_neg hndir, if_neg hndir2]
    rw [hval] at hne ⊢
    obtain ⟨h1, b, l, hl, h2⟩ := ih hb hc hne
    exact ⟨h1, b, l, by rw [List.getLast?_cons_cons]; exact hl, h2⟩

/-- The invariant lifted to tryPathCombinations. -/
theorem tryPathCombinations_sound (fs : FS) (base : GoStr) (parts : List GoStr)
    (hne : tryPathCombinations fs base parts ≠ []) :
    fileExists fs (tryPathCombinations fs base parts) = true ∧
    ∃ b l, parts.getLast? = some l ∧ l ≠ [] ∧
      (containsSeq l vhdMarker || containsSeq l vmgsMarker) = true ∧
      tryPathCombinations fs base parts = joinPath b l ∧
      (b = base ∨ isDirAt fs b = true) := by
  unfold tryPathCombinations at hne ⊢
  by_cases hp : parts = []
  · rw [if_pos hp] at hne
    exact absurd rfl hne
  · rw [if_neg hp] at hne ⊢
    exact tryPathLoop_sound fs base base [] parts (Or.inl rfl) (Or.inl rfl) hne

/-- C2: in the disambiguation strategy every non-empty result is an
existence-verified file join of the final segment onto either the untouched
base path or a directory verified on disk through the join/merge checks, and
when no join of the final segment exists as a file the decode returns empty
instead of guessing. -/
theorem tryPathCombinations_checked_consumption (fs : FS) (base : GoStr)
    (parts : List GoStr) :
    (tryPathCombinations fs base parts ≠ [] →
      fileExists fs (tryPathCombinations fs base parts) = true ∧
      ∃ b l, parts.getLast? = some l ∧ l ≠ [] ∧
        (containsSeq l vhdMarker || containsSeq l vmgsMarker) = true ∧
        tryPathCombinations fs base parts = joinPath b l ∧
        (b = base ∨ isDirAt fs b = true)) ∧
    ((∀ b, fileExists fs (joinPath b (parts.getLast?.getD [])) = false) →
      tryPathCombinations fs base parts = []) := by
  refine ⟨tryPathCombinations_sound fs base parts, ?_⟩
  intro hno
  by_contra hne
  obtain ⟨h1, b, l, hl, _, _, heq, _⟩ := tryPathCombinations_sound fs base parts hne
  rw [heq] at h1
  have h2 := hno b
  rw [hl] at h2
  simp only [Option.getD_some] at h2
  rw [h1] at h2
  simp at h2

/-- Witness for C2: on the concrete filesystem fsA the disambiguation
returns a non-empty result, and that result exists as a file. -/
theorem tryPathCombinations_checked_consumption_witness :
    fileExists fsA (tryPathCombinations fsA (("C:\\").toList)
      [("Data").toList, ("VM").toList, ("A").toList, ("state.vmgs").toList]) = true :=
  ((tryPathCombinations_checked_consumption fsA (("C:\\").toList)
    [("Data").toList, ("VM").toList, ("A").toList, ("state.vmgs").toList]).1
    (by decide)).1

/-- C10: the final segment is a file candidate exactly on a ".vhd" or
".vmgs" substring match: without such a substring disambiguation returns
empty; a .vmgs file is decodable; an existing .iso file is never returned
by disambiguation; and the match is on the substring, not the extension, so
a .bak file whose name contains ".vhd" is returned. -/
theorem tryPathCombinations_substring_marker :
    (∀ (fs : FS) (base : GoStr) (parts : List GoStr) (l : GoStr),
      parts.getLast? = some l →
      containsSeq l vhdMarker = false → containsSeq l vmgsMarker = false →
      tryPathCombinations fs base parts = []) ∧
    decodeVirtualDiskPath fsA (("C:-Data-VM-A-state.vmgs").toList) =
      ("C:\\Data\\VM-A\\state.vmgs").toList ∧
    (decodeVirtualDiskPath fsIso (("C:-Data-VM-A-boot.iso").toList) = [] ∧
      fileExists fsIso (("C:\\Data\\VM-A\\boot.iso").toList) = true) ∧
    (decodeVirtualDiskPath fsBak (("C:-Data-VM-A-x.vhd.bak").toList) =
        ("C:\\Data\\VM-A\\x.vhd.bak").toList ∧
      extOf (("C:\\Data\\VM-A\\x.vhd.bak").toList) = (".bak").toList) := by
  refine ⟨?_, by decide, ⟨by decide, by decide⟩, by decide, by decide⟩
  intro fs base parts l hl h1 h2
  by_contra hne
  obtain ⟨_, b, l2, hl2, _, hm, _, _⟩ := tryPathCombinations_sound fs base parts hne
  rw [hl] at hl2
  cases hl2
  rw [h1, h2] at hm
  simp at hm

/-- Witness for C10: segments whose final element lacks both markers make
the disambiguation return empty on a concrete filesystem. -/
theorem tryPathCombinations_substring_marker_witness :
    tryPathCombinations fsIso (("C:\\").toList)
      [("Data").toList, ("b.txt").toList] = [] :=
  tryPathCombinations_substring_marker.1 fsIso (("C:\\").toList)
    [("Data").toList, ("b.txt").toList] (("b.txt").toList) rfl
    (by decide) (by decide)

/-- The fallback search scans base directories in list order: a search over
a concatenation returns the first list's result whenever it finds one. -/
theorem searchVhdPaths_append (fs : FS) (names : List GoStr) (xs ys : List GoStr) :
    searchVhdPaths fs names (xs ++ ys) =
      match searchVhdPaths fs names xs with
      | some r => some r
      | none => searchVhdPaths fs names ys := by
  induction xs with
  | nil => rfl
  | cons bp rest ih =>
    show searchVhdPaths fs names (bp :: (rest ++ ys)) = _
    simp only [searchVhdPaths]
    cases searchNamesIn fs bp names <;> simp [ih]

/-- C6: a non-empty HYPERV_VHD_PATHS override is split on semicolons and
prepended to (not substituted for) the built-in base directories, and any
match found inside the override directories is the match returned by the
whole fallback search, regardless of what the built-in directories hold. -/
theorem resolver_override_priority (fs : FS) (env : GoStr)
    (names : List GoStr) (p : GoStr) :
    (env ≠ [] → commonPathsFor env = splitChar env ';' ++ commonPathsBuiltin) ∧
    (env ≠ [] → searchVhdPaths fs names (splitChar env ';') = some p →
      searchVhdPaths fs names (commonPathsFor env) = some p) := by
  constructor
  · intro h
    simp [commonPathsFor, h]
  · intro h hfound
    have hsplit : commonPathsFor env = splitChar env ';' ++ commonPathsBuiltin := by
      simp [commonPathsFor, h]
    rw [hsplit, searchVhdPaths_append, hfound]

/-- Witness for C6: with the override X:\VHDs, the candidate vm1.vhdx found
there is the result of the full search, although the built-in directory
C:\ClusterStorage also holds a file of the same name (found when the
override directories are absent). -/
theorem resolver_override_priority_witness :
    searchVhdPaths fsOv (possibleNamesFor (("vm1").toList))
      (commonPathsFor (("X:\\VHDs").toList)) = some (("X:\\VHDs\\vm1.vhdx").toList) ∧
    searchVhdPaths fsOv (possibleNamesFor (("vm1").toList)) commonPathsBuiltin =
      some (("C:\\ClusterStorage\\vm1.vhdx").toList) :=
  ⟨(resolver_override_priority fsOv (("X:\\VHDs").toList)
      (possibleNamesFor (("vm1").toList)) (("X:\\VHDs\\vm1.vhdx").toList)).2
    (by decide) (by decide),
   by decide⟩

/-- C5: the resolver consults nothing but the filesystem oracles and its
arguments, so two calls against the same filesystem state and environment
return the same result. -/
theorem resolveVirtualDiskPath_idempotent (fs1 fs2 : FS) (env instanceName : GoStr)
    (hstat : fs1.stat = fs2.stat) (hglob : fs1.glob = fs2.glob) :
    resolveVirtualDiskPath fs1 env instanceName =
      resolveVirtualDiskPath fs2 env instanceName := by
  obtain ⟨s1, g1⟩ := fs1
  obtain ⟨s2, g2⟩ := fs2
  cases hstat
  cases hglob
  rfl

/-- Witness for C5: two resolve calls on the unchanged concrete filesystem
fsD agree. -/
theorem resolveVirtualDiskPath_idempotent_witness :
    resolveVirtualDiskPath fsD [] (("V:-d.vhdx").toList) =
      resolveVirtualDiskPath fsD [] (("V:-d.vhdx").toList) :=
  resolveVirtualDiskPath_idempotent fsD fsD [] (("V:-d.vhdx").toList) rfl rfl

/-- C3 is refuted as stated: the instance name 1:-a exhibits neither the
letter-colon-delimiter pattern of the claim nor the UNC marker, yet on a
filesystem holding 1:\a decode returns that path, because the code only
looks for the two-character substring colon-delimiter. -/
theorem decode_marker_counterexample :
    specHasDriveLetterPattern (("1:-a").toList) = false ∧
    hasPrefixSeq (("1:-a").toList) uncMarker = false ∧
    decodeVirtualDiskPath fsOne (("1:-a").toList) = ("1:\\a").toList ∧
    ("1:\\a").toList ≠ [] := by decide

/-- C3 (amended): for every instance name that does not contain the
colon-delimiter substring (the leading drive character is not inspected by
this check) and does not begin with the encoded UNC marker, decode returns
empty; in particular decode of VMName_DiskName and of the empty string
return empty. -/
theorem decode_no_marker_empty (fs : FS) (s : GoStr)
    (h1 : containsSeq s driveMarker = false)
    (h2 : hasPrefixSeq s uncMarker = false) :
    decodeVirtualDiskPath fs s = [] ∧
    decodeVirtualDiskPath fs (("VMName_DiskName").toList) = [] ∧
    decodeVirtualDiskPath fs [] = [] := by
  refine ⟨?_, rfl, rfl⟩
  unfold decodeVirtualDiskPath
  by_cases hs : s = []
  · rw [if_pos hs]
  · rw [if_neg hs, if_pos (by simp [h1, h2])]

/-- Witness for C3: a marker-free name yields empty on a concrete
filesystem. -/
theorem decode_no_marker_empty_witness :
    decodeVirtualDiskPath fsD (("plainname").toList) = [] :=
  (decode_no_marker_empty fsD (("plainname").toList) (by decide) (by decide)).1

/-- C9: past the marker check, decode still returns empty unless the
remainder after stripping the UNC marker has at least three characters with
a colon at index 1 and the delimiter at index 2; the character at index 0
is not required to be a letter, so --?-foo decodes to empty while 1:-a
passes the check and resolves. -/
theorem decode_shape_check (fs : FS) (s : GoStr)
    (hmark : (containsSeq s driveMarker || hasPrefixSeq s uncMarker) = true)
    (hshape : (trimPrefixSeq s uncMarker).length < 3 ∨
      (trimPrefixSeq s uncMarker).getD 1 ' ' ≠ ':' ∨
      (trimPrefixSeq s uncMarker).getD 2 ' ' ≠ '-') :
    decodeVirtualDiskPath fs s = [] ∧
    decodeVirtualDiskPath fs (("--?-foo").toList) = [] ∧
    decodeVirtualDiskPath fsOne (("1:-a").toList) = ("1:\\a").toList := by
  refine ⟨?_, rfl, by decide⟩
  unfold decodeVirtualDiskPath
  by_cases hs : s = []
  · rw [if_pos hs]
  · rw [if_neg hs]
    have hcond : (!containsSeq s driveMarker && !hasPrefixSeq s uncMarker) = false := by
      rcases Bool.or_eq_true_iff.mp hmark with h | h <;> simp [h]
    rw [if_neg (by simp [hcond])]
    simp only []
    rw [if_pos hshape]

/-- Witness for C9: the name --?-bar passes the marker check yet fails the
shape check, so decode returns empty on the concrete filesystem fsD. -/
theorem decode_shape_check_witness :
    decodeVirtualDiskPath fsD (("--?-bar").toList) = [] :=
  (decode_shape_check fsD (("--?-bar").toList) (by decide) (by decide)).1

/-- C7: the size query never leaks a handle: each call performs either no
handle events (UTF16 or open failure) or exactly one open paired with one
close (both the query-failure and the success path), so per call and over
any sequence of calls the number of successful opens equals the number of
closes. -/
theorem virtdisk_no_handle_leak (w : VirtDiskWorld) (path : GoStr) :
    ((GetVirtualDiskSize w path).2 = [] ∨
      ∃ h, w.openDisk (storageTypeOf path) path = some h ∧
        (GetVirtualDiskSize w path).2 = [HandleEvent.opened h, HandleEvent.closed h]) ∧
    countOpens (GetVirtualDiskSize w path).2 = countCloses (GetVirtualDiskSize w path).2 ∧
    (∀ paths : List GoStr,
      countOpens (paths.flatMap fun q => (GetVirtualDiskSize w q).2) =
        countCloses (paths.flatMap fun q => (GetVirtualDiskSize w q).2)) := by
  have hmain : ∀ q : GoStr, (GetVirtualDiskSize w q).2 = [] ∨
      ∃ h, w.openDisk (storageTypeOf q) q = some h ∧
        (GetVirtualDiskSize w q).2 = [HandleEvent.opened h, HandleEvent.closed h] := by
    intro q
    unfold GetVirtualDiskSize
    by_cases hn : q.contains (Char.ofNat 0) = true
    · rw [if_pos hn]
      exact Or.inl rfl
    · rw [if_neg hn]
      cases ho : w.openDisk (storageTypeOf q) q with
      | none => exact Or.inl rfl
      | some h =>
        cases hq : w.queryInfo h with
        | none =>
          refine Or.inr ⟨h, rfl, ?_⟩
          simp [hq]
        | some sizes =>
          refine Or.inr ⟨h, rfl, ?_⟩
          simp [hq]
  have hcount : ∀ q : GoStr,
      countOpens (GetVirtualDiskSize w q).2 = countCloses (GetVirtualDiskSize w q).2 := by
    intro q
    rcases hmain q with h | ⟨hh, _, h⟩ <;> rw [h] <;> rfl
  refine ⟨hmain path, hcount path, ?_⟩
  intro paths
  induction paths with
  | nil => rfl
  | cons q rest ih =>
    have hq := hcount q
    simp only [List.flatMap_cons, countOpens, countCloses, List.countP_append] at hq ih ⊢
    omega

/-- The two size gauges are exactly the size observations of a device row,
carrying the components of the computed outcome triple. -/
theorem sizeObservations_collectOne (fs : FS) (w : VirtDiskWorld) (env : GoStr)
    (data : PerfDataVSD) :
    sizeObservations (collectOneVSD fs w env data) =
      [Metric.vsize (sizeOutcome fs w env data.name).1 data.name
        (sizeOutcome fs w env data.name).2.2,
       Metric.psize (sizeOutcome fs w env data.name).2.1 data.name
        (sizeOutcome fs w env data.name).2.2] := by
  simp [collectOneVSD, sizeObservations, isSizeMetric, List.filter_append, List.filter]

/-- C8: any failing size probe, whether it failed at open or at query,
yields the identical per-device emission with both sentinels and never
aborts the cycle; the only aborting failure class is a failure of the
performance counter collection itself, which is propagated as the cycle
error. -/
theorem probe_failure_single_outcome (fs : FS) (env : GoStr) (data : PerfDataVSD)
    (w1 w2 : VirtDiskWorld)
    (hres : resolveVirtualDiskPath fs env data.name ≠ [])
    (hf1 : probeFailed (GetVirtualDiskSize w1 (resolveVirtualDiskPath fs env data.name)).1 = true)
    (hf2 : probeFailed (GetVirtualDiskSize w2 (resolveVirtualDiskPath fs env data.name)).1 = true) :
    collectOneVSD fs w1 env data = collectOneVSD fs w2 env data ∧
    sizeObservations (collectOneVSD fs w1 env data) =
      [Metric.vsize (-1) data.name (resolveVirtualDiskPath fs env data.name),
       Metric.psize (-1) data.name (resolveVirtualDiskPath fs env data.name)] ∧
    (∀ (w : VirtDiskWorld) (e : Unit),
      collectVirtualStorageDevice fs w env (Except.error e) =
        Except.error CollectError.perfFail) ∧
    (∀ (w : VirtDiskWorld) (rows : List PerfDataVSD),
      collectVirtualStorageDevice fs w env (Except.ok rows) =
        Except.ok (rows.flatMap (collectOneVSD fs w env))) := by
  have houtcome : ∀ w : VirtDiskWorld,
      probeFailed (GetVirtualDiskSize w (resolveVirtualDiskPath fs env data.name)).1 = true →
      sizeOutcome fs w env data.name =
        (-1, -1, resolveVirtualDiskPath fs env data.name) := by
    intro w hf
    simp only [sizeOutcome]
    rw [if_pos hres]
    cases hm : (GetVirtualDiskSize w (resolveVirtualDiskPath fs env data.name)).1 with
    | error e => rfl
    | ok sizes =>
      rw [hm] at hf
      simp [probeFailed] at hf
  refine ⟨?_, ?_, fun w e => rfl, fun w rows => rfl⟩
  · simp only [collectOneVSD, houtcome w1 hf1, houtcome w2 hf2]
  · rw [sizeObservations_collectOne, houtcome w1 hf1]

/-- Witness for C8: on fsD with dataD, an open failure and a query failure
produce the same emission. -/
theorem probe_failure_single_outcome_witness :
    collectOneVSD fsD wOpenFail [] dataD = collectOneVSD fsD wQueryFail [] dataD :=
  (probe_failure_single_outcome fsD [] dataD wOpenFail wQueryFail
    (by decide) (by decide) (by decide)).1

/-- C1 is refuted as stated: when the path resolves to V:\d.vhdx but the
size query fails, both observations carry the sentinel -1, yet the label is
the resolved path, not the claimed "unknown". -/
theorem collect_label_counterexample :
    resolveVirtualDiskPath fsD [] dataD.name = ("V:\\d.vhdx").toList ∧
    probeFailed (GetVirtualDiskSize wQueryFail (("V:\\d.vhdx").toList)).1 = true ∧
    sizeObservations (collectOneVSD fsD wQueryFail [] dataD) =
      [Metric.vsize (-1) dataD.name (("V:\\d.vhdx").toList),
       Metric.psize (-1) dataD.name (("V:\\d.vhdx").toList)] ∧
    ("V:\\d.vhdx").toList ≠ unknownLabel := by decide

/-- C1 (amended): every device row yields exactly two size observations;
when resolution fails both carry -1 and the label "unknown"; when
resolution succeeds but the size query fails both carry -1 with the
resolved path as label; on success they carry the true sizes and the
resolved path; and a cycle whose perf collection succeeded processes every
row, so one device's failure never suppresses another device's
observations. -/
theorem collect_two_size_observations (fs : FS) (w : VirtDiskWorld) (env : GoStr)
    (data : PerfDataVSD) :
    (sizeObservations (collectOneVSD fs w env data)).length = 2 ∧
    (resolveVirtualDiskPath fs env data.name = [] →
      sizeObservations (collectOneVSD fs w env data) =
        [Metric.vsize (-1) data.name unknownLabel,
         Metric.psize (-1) data.name unknownLabel]) ∧
    (∀ v p : Nat, resolveVirtualDiskPath fs env data.name ≠ [] →
      (GetVirtualDiskSize w (resolveVirtualDiskPath fs env data.name)).1 = Except.ok (v, p) →
      sizeObservations (collectOneVSD fs w env data) =
        [Metric.vsize (v : Int) data.name (resolveVirtualDiskPath fs env data.name),
         Metric.psize (p : Int) data.name (resolveVirtualDiskPath fs env data.name)]) ∧
    (∀ e : VirtDiskError, resolveVirtualDiskPath fs env data.name ≠ [] →
      (GetVirtualDiskSize w (resolveVirtualDiskPath fs env data.name)).1 = Except.error e →
      sizeObservations (collectOneVSD fs w env data) =
        [Metric.vsize (-1) data.name (resolveVirtualDiskPath fs env data.name),
         Metric.psize (-1) data.name (resolveVirtualDiskPath fs env data.name)]) ∧
    (∀ rows : List PerfDataVSD,
      collectVirtualStorageDevice fs w env (Except.ok rows) =
        Except.ok (rows.flatMap (collectOneVSD fs w env))) := by
  refine ⟨by rw [sizeObservations_collectOne]; rfl, ?_, ?_, ?_, fun rows => rfl⟩
  · intro hres
    rw [sizeObservations_collectOne]
    simp [sizeOutcome, hres]
  · intro v p hres hok
    rw [sizeObservations_collectOne]
    simp only [sizeOutcome]
    rw [if_pos hres, hok]
  · intro e hres herr
    rw [sizeObservations_collectOne]
    simp only [sizeOutcome]
    rw [if_pos hres, herr]

/-- Witness for C1: on fsD with a successful probe the emission carries the
true sizes 100 and 50 with the resolved path label. -/
theorem collect_two_size_observations_witness :
    sizeObservations (collectOneVSD fsD wOk [] dataD) =
      [Metric.vsize 100 dataD.name (resolveVirtualDiskPath fsD [] dataD.name),
       Metric.psize 50 dataD.name (resolveVirtualDiskPath fsD [] dataD.name)] :=
  (collect_two_size_observations fsD wOk [] dataD).2.2.1 100 50
    (by decide) rfl

/-- Characters of a backslash-join are the separator or segment characters. -/
theorem mem_joinSegs (segs : List GoStr) :
    ∀ c : Char, c ∈ joinSegs segs → c = '\\' ∨ ∃ s ∈ segs, c ∈ s := by
  induction segs with
  | nil =>
    intro c hc
    simp [joinSegs] at hc
  | cons s rest ih =>
    intro c hc
    cases rest with
    | nil =>
      simp only [joinSegs] at hc
      exact Or.inr ⟨s, by simp, hc⟩
    | cons s2 rest2 =>
      simp only [joinSegs] at hc
      rcases List.mem_append.mp hc with h | h
      · exact Or.inr ⟨s, by simp, h⟩
      · rcases List.mem_cons.mp h with h | h
        · exact Or.inl h
        · rcases ih c h with h | ⟨u, hu, hcu⟩
          · exact Or.inl h
          · exact Or.inr ⟨u, by simp [hu], hcu⟩

/-- Replacing backslashes by the delimiter and back is the identity on
strings free of the delimiter. -/
theorem replaceAllChar_round (l : GoStr) (h : ∀ c ∈ l, c ≠ '-') :
    replaceAllChar (replaceAllChar l '\\' '-') '-' '\\' = l := by
  induction l with
  | nil => rfl
  | cons c t ih =>
    have hc : c ≠ '-' := h c (List.mem_cons_self c t)
    have ih2 := ih fun x hx => h x (List.mem_cons_of_mem c hx)
    simp only [replaceAllChar, List.map_cons] at ih2 ⊢
    rw [ih2]
    by_cases hb : c = '\\' <;> simp [hb, hc]

/-- An encoded drive-letter shape always contains the drive marker. -/
theorem containsSeq_driveMarker_cons (d : Char) (t : GoStr) :
    containsSeq (d :: ':' :: '-' :: t) driveMarker = true := by
  have hm : driveMarker = [':', '-'] := rfl
  simp [containsSeq, hm, List.isPrefixOf]

/-- An encoded drive-letter shape never starts with the UNC marker, since
its second character is a colon. -/
theorem hasPrefixSeq_unc_cons (d : Char) (t : GoStr) :
    hasPrefixSeq (d :: ':' :: '-' :: t) uncMarker = false := by
  have hm : uncMarker = ['-', '-', '?', '-'] := rfl
  simp [hasPrefixSeq, hm, List.isPrefixOf]

/-- Decode on an encoded drive-letter shape takes the simple-substitution
fast path whenever the substituted path exists. -/
theorem decode_fastpath (fs : FS) (d : Char) (t : GoStr)
    (hex : fileExists fs (d :: ':' :: '\\' :: replaceAllChar t '-' '\\') = true) :
    decodeVirtualDiskPath fs (d :: ':' :: '-' :: t) =
      d :: ':' :: '\\' :: replaceAllChar t '-' '\\' := by
  have hmark := containsSeq_driveMarker_cons d t
  have hunc := hasPrefixSeq_unc_cons d t
  have htrim : trimPrefixSeq (d :: ':' :: '-' :: t) uncMarker = d :: ':' :: '-' :: t := by
    unfold trimPrefixSeq
    unfold hasPrefixSeq at hunc
    simp [hunc]
  unfold decodeVirtualDiskPath
  rw [if_neg (by simp : ¬(d :: ':' :: '-' :: t = ([] : GoStr)))]
  rw [if_neg (by rw [hmark]; simp)]
  simp only [htrim]
  rw [if_neg ?hshape]
  case hshape =>
    intro hcontra
    rcases hcontra with h | h | h
    · simp at h
      omega
    · exact h (by simp [List.getD])
    · exact h (by simp [List.getD])
  simp only [List.getD_cons_zero, List.getD_cons_succ, List.drop_succ_cons,
    List.drop_zero]
  rw [if_pos hex]

/-- C4: for every path with a letter drive and delimiter-free segments that
exists on the filesystem, applying the documented encoding transform and
then decoding reproduces the original path exactly. -/
theorem decode_encode_round (fs : FS) (d : Char) (segs : List GoStr)
    (hd : d.isAlpha = true)
    (hsegs : ∀ s ∈ segs, ('-' : Char) ∉ s)
    (hex : fileExists fs (d :: ':' :: '\\' :: joinSegs segs) = true) :
    decodeVirtualDiskPath fs (encodePath (d :: ':' :: '\\' :: joinSegs segs)) =
      d :: ':' :: '\\' :: joinSegs segs := by
  have hd' : d ≠ '\\' := by
    intro h
    rw [h] at hd
    exact absurd hd (by decide)
  have henc : encodePath (d :: ':' :: '\\' :: joinSegs segs) =
      d :: ':' :: '-' :: replaceAllChar (joinSegs segs) '\\' '-' := by
    simp [encodePath, replaceAllChar, hd']
  have hround : replaceAllChar (replaceAllChar (joinSegs segs) '\\' '-') '-' '\\' =
      joinSegs segs := by
    apply replaceAllChar_round
    intro c hc
    rcases mem_joinSegs segs c hc with h | ⟨s, hs, hcs⟩
    · rw [h]
      decide
    · intro hcontra
      rw [hcontra] at hcs
      exact hsegs s hs hcs
  rw [henc, decode_fastpath fs d (replaceAllChar (joinSegs segs) '\\' '-')
    (by rw [hround]; exact hex), hround]

/-- Witness for C4: the concrete path C:\Data\disk.vhdx on fsRT encodes to
C:-Data-disk.vhdx and decodes back to itself. -/
theorem decode_encode_round_witness :
    decodeVirtualDiskPath fsRT
      (encodePath ('C' :: ':' :: '\\' :: joinSegs [("Data").toList, ("disk.vhdx").toList])) =
      'C' :: ':' :: '\\' :: joinSegs [("Data").toList, ("disk.vhdx").toList] :=
  decode_encode_round fsRT 'C' [("Data").toList, ("disk.vhdx").toList]
    (by decide) (by decide) (by decide)

end WinExporter
